import Mathlib

/-!
Shallow embedding of the `failuredetector` Go package (a port of Akka's
PhiAccrualFailureDetector) and verification of its specification.

Source files embedded: `history.go` (the bounded heartbeat-interval history
with uint64 running sums) and `phi.go` (the detector, its phi computation and
the heartbeat state update).  Machine integers (`uint64`) are modelled as
natural numbers reduced modulo `2 ^ 64`; `time.Duration` and `time.Time` are
modelled as integers (nanoseconds); `float64` arithmetic is modelled by exact
real arithmetic.
-/

/-- Cardinality of the Go `uint64` type, two to the 64. -/
def U64 : ℕ := 18446744073709551616

/-- Reduction of a natural number to a Go `uint64` value. -/
def wrap64 (n : ℕ) : ℕ := n % U64

/-- Go `uint64` subtraction `a - b` (two's-complement wraparound). -/
def sub64 (a b : ℕ) : ℕ := (a + (U64 - wrap64 b)) % U64

/-- Go `uint64` addition `a + b` (wraparound). -/
def add64 (a b : ℕ) : ℕ := (a + b) % U64

/-- Go `uint64` multiplication `a * b` (wraparound). -/
def mul64 (a b : ℕ) : ℕ := (a * b) % U64

/-- Embedding of `heartbeatHistory` (history.go): a persistent bounded window
of heartbeat intervals in milliseconds with running sum and sum of squares,
all `uint64` values. -/
structure heartbeatHistory where
  maxSampleSize : ℕ
  intervals : List ℕ
  intervalSum : ℕ
  squaredIntervalSum : ℕ
deriving DecidableEq

/-- Embedding of `newHeartbeatHistory` (history.go): fresh empty history. -/
def newHeartbeatHistory (maxSampleSize : ℕ) : heartbeatHistory :=
  { maxSampleSize := maxSampleSize
    intervals := []
    intervalSum := 0
    squaredIntervalSum := 0 }

/-- Embedding of `heartbeatHistory.mean` (history.go): `intervalSum`
divided by the sample count, in `float64` (modelled exactly in `ℝ`). -/
noncomputable def heartbeatHistory.mean (h : heartbeatHistory) : ℝ :=
  (h.intervalSum : ℝ) / (h.intervals.length : ℝ)

/-- Embedding of `heartbeatHistory.variance` (history.go). -/
noncomputable def heartbeatHistory.variance (h : heartbeatHistory) : ℝ :=
  ((h.squaredIntervalSum : ℝ) / (h.intervals.length : ℝ)) - h.mean * h.mean

/-- Embedding of `heartbeatHistory.stdDeviation` (history.go). -/
noncomputable def heartbeatHistory.stdDeviation (h : heartbeatHistory) : ℝ :=
  Real.sqrt h.variance

/-- Embedding of `heartbeatHistory.append` (history.go).  Below capacity the
window grows; otherwise the oldest sample `intervals[0]` is dropped and its
value and square are subtracted from the running sums (uint64 wraparound
arithmetic).  The Go code indexes `h.intervals[0]`, which panics when the
window is empty while at capacity; that situation requires
`maxSampleSize = 0`, ruled out by the constructor's validation, and is given
the harmless value `headI = 0` here. -/
def heartbeatHistory.append (h : heartbeatHistory) (interval : ℕ) : heartbeatHistory :=
  let droppedInterval : ℕ :=
    if h.intervals.length < h.maxSampleSize then 0 else h.intervals.headI
  let src : List ℕ :=
    if h.intervals.length < h.maxSampleSize then h.intervals else h.intervals.tail
  { maxSampleSize := h.maxSampleSize
    intervals := src ++ [interval]
    intervalSum := add64 (sub64 h.intervalSum droppedInterval) interval
    squaredIntervalSum :=
      add64 (sub64 h.squaredIntervalSum (mul64 droppedInterval droppedInterval))
        (mul64 interval interval) }

/-- Sum of the squares of a list of samples. -/
def sumSq (l : List ℕ) : ℕ := (l.map fun x => x * x).sum

theorem append_maxSampleSize (h : heartbeatHistory) (x : ℕ) :
    (h.append x).maxSampleSize = h.maxSampleSize := rfl

theorem append_intervals_lt (h : heartbeatHistory) (x : ℕ)
    (hlt : h.intervals.length < h.maxSampleSize) :
    (h.append x).intervals = h.intervals ++ [x] := by
  simp [heartbeatHistory.append, hlt]

theorem append_intervals_ge (h : heartbeatHistory) (x : ℕ)
    (hge : ¬ h.intervals.length < h.maxSampleSize) :
    (h.append x).intervals = h.intervals.tail ++ [x] := by
  simp [heartbeatHistory.append, hge]

theorem append_length (h : heartbeatHistory) (x : ℕ) :
    (h.append x).intervals.length =
      if h.intervals.length < h.maxSampleSize
      then h.intervals.length + 1 else h.intervals.tail.length + 1 := by
  by_cases hlt : h.intervals.length < h.maxSampleSize
  · simp [append_intervals_lt h x hlt, hlt]
  · simp [append_intervals_ge h x hlt, hlt]

theorem append_intervalSum (h : heartbeatHistory) (x : ℕ) :
    (h.append x).intervalSum =
      add64 (sub64 h.intervalSum
        (if h.intervals.length < h.maxSampleSize then 0 else h.intervals.headI)) x := rfl

theorem append_squaredIntervalSum (h : heartbeatHistory) (x : ℕ) :
    (h.append x).squaredIntervalSum =
      add64 (sub64 h.squaredIntervalSum
        (mul64 (if h.intervals.length < h.maxSampleSize then 0 else h.intervals.headI)
          (if h.intervals.length < h.maxSampleSize then 0 else h.intervals.headI)))
        (mul64 x x) := rfl

/-- Appending preserves correctness of the running sum and running
sum-of-squares: after an append they again equal the (uint64) sum of the
stored samples and of their squares. -/
theorem append_sums (h : heartbeatHistory) (x : ℕ)
    (hmax : 1 ≤ h.maxSampleSize)
    (hsum : h.intervalSum = h.intervals.sum % U64)
    (hsq : h.squaredIntervalSum = sumSq h.intervals % U64) :
    (h.append x).intervalSum = (h.append x).intervals.sum % U64 ∧
      (h.append x).squaredIntervalSum = sumSq (h.append x).intervals % U64 := by
  by_cases hlt : h.intervals.length < h.maxSampleSize
  · rw [append_intervals_lt h x hlt]
    rw [append_intervalSum, append_squaredIntervalSum, if_pos hlt, hsum, hsq]
    simp only [add64, sub64, mul64, wrap64, sumSq, List.map_append, List.map_cons,
      List.map_nil, List.sum_append, List.sum_cons, List.sum_nil, U64]
    constructor
    · omega
    · generalize x * x = xx
      omega
  · rw [append_intervals_ge h x hlt]
    rw [append_intervalSum, append_squaredIntervalSum, if_neg hlt, hsum, hsq]
    obtain ⟨i, t, hit⟩ : ∃ i t, h.intervals = i :: t := by
      rcases hi : h.intervals with _ | ⟨i, t⟩
      · rw [hi] at hlt
        simp at hlt
        omega
      · exact ⟨i, t, rfl⟩
    rw [hit]
    simp only [add64, sub64, mul64, wrap64, sumSq, List.headI, List.tail_cons,
      List.map_append, List.map_cons, List.map_nil, List.sum_append, List.sum_cons,
      List.sum_nil, U64]
    constructor
    · omega
    · generalize x * x = xx
      generalize i * i = ii
      omega

/-- Embedding of `toMillis` (phi.go): `uint64(d.Seconds() * 1e3)` for a
`time.Duration` (int64 nanoseconds).  Mathematically this is the duration
divided by one million, truncated toward zero, then converted
float64 → uint64.  The sub-millisecond `float64` rounding of the
intermediate is modelled by the exact quotient; the out-of-range conversion
of a negative value follows Go's amd64 behaviour, where `uint64(f)` for
`-2^63 ≤ f < 0` yields `2^64` plus the truncation of `f`. -/
def toMillis (d : ℤ) : ℕ :=
  let ms : ℤ := d.tdiv 1000000
  if ms < 0 then (ms + (U64 : ℤ)).toNat % U64 else ms.toNat % U64

/-- Embedding of `initHeartbeat` (phi.go): the bootstrap history, seeded with
the two samples `estimateMs - estimateMs/4` and `estimateMs + estimateMs/4`. -/
def initHeartbeat (maxSampleSize : ℕ) (firstHeartbeatEstimate : ℤ) : heartbeatHistory :=
  let firstHeartbeatEstimateMS := toMillis firstHeartbeatEstimate
  let stdDeviationMS := firstHeartbeatEstimateMS / 4
  ((newHeartbeatHistory maxSampleSize).append
      (firstHeartbeatEstimateMS - stdDeviationMS)).append
    (firstHeartbeatEstimateMS + stdDeviationMS)

/-- Embedding of the `PhiAccuralFailureDetector` struct (phi.go).  Durations
are integer nanoseconds; the event stream channel is modelled by whether a
sink is configured (`eventStream = true` iff the Go field is non-nil). -/
structure PhiAccuralFailureDetector where
  threshold : ℝ
  maxSampleSize : ℕ
  minStdDeviation : ℤ
  acceptableHeartbeatPause : ℤ
  firstHeartbeatEstimate : ℤ
  eventStream : Bool
  firstHeartbeat : heartbeatHistory
  acceptableHeartbeatPauseMS : ℕ
  minStdDeviationMS : ℕ

/-- Embedding of the `state` struct (phi.go): the atomically replaced
snapshot, pairing the current history with the optional last-heartbeat
timestamp (integer nanoseconds; `none` = never observed). -/
structure state where
  history : heartbeatHistory
  timestamp : Option ℤ

/-- Embedding of `New` (phi.go): the validating constructor.  Returns the
detector together with its initial snapshot, or `none` when a configuration
constraint is violated (the Go code returns a distinct error message per
violated constraint). -/
noncomputable def New (threshold : ℝ) (maxSampleSize : ℕ)
    (minStdDeviation acceptableHeartbeatPause firstHeartbeatEstimate : ℤ)
    (eventStream : Bool) : Option (PhiAccuralFailureDetector × state) :=
  if threshold ≤ 0 then none
  else if maxSampleSize ≤ 0 then none
  else if minStdDeviation ≤ 0 then none
  else if acceptableHeartbeatPause < 0 then none
  else if firstHeartbeatEstimate ≤ 0 then none
  else
    let firstHeartbeat := initHeartbeat maxSampleSize firstHeartbeatEstimate
    some
      ({ threshold := threshold
         maxSampleSize := maxSampleSize
         minStdDeviation := minStdDeviation
         acceptableHeartbeatPause := acceptableHeartbeatPause
         firstHeartbeatEstimate := firstHeartbeatEstimate
         eventStream := eventStream
         firstHeartbeat := firstHeartbeat
         acceptableHeartbeatPauseMS := toMillis acceptableHeartbeatPause
         minStdDeviationMS := toMillis minStdDeviation },
       { history := firstHeartbeat, timestamp := none })

/-- Embedding of `phi` (phi.go): the closed-form logistic approximation of
the suspicion level, exactly as written in the source. -/
noncomputable def phi (timeDiff mean stdDeviation : ℝ) : ℝ :=
  let y := (timeDiff - mean) / stdDeviation
  let e := Real.exp (-y * (1.5976 + 0.070566 * y * y))
  if mean < timeDiff then
    -Real.logb 10 (e / (1 + e))
  else
    -Real.logb 10 (1 - 1 / (1 + e))

/-- Embedding of `ensureValidStdDeviation` (phi.go). -/
noncomputable def ensureValidStdDeviation (d : PhiAccuralFailureDetector)
    (stdDeviation : ℝ) : ℝ :=
  max stdDeviation (d.minStdDeviationMS : ℝ)

/-- Embedding of `phiAt` (phi.go), with the snapshot passed explicitly in
place of the atomic load. -/
noncomputable def phiAt (d : PhiAccuralFailureDetector) (s : state)
    (timestamp : ℤ) : ℝ :=
  match s.timestamp with
  | none => 0
  | some oldTimestamp =>
      let timeDiff := timestamp - oldTimestamp
      let history := s.history
      let mean := history.mean
      let stdDeviation := ensureValidStdDeviation d history.stdDeviation
      phi (toMillis timeDiff : ℝ) (mean + (d.acceptableHeartbeatPauseMS : ℝ)) stdDeviation

/-- Embedding of `isAvailableAt` (phi.go). -/
noncomputable def isAvailableAt (d : PhiAccuralFailureDetector) (s : state)
    (t : ℤ) : Prop :=
  phiAt d s t < d.threshold

/-- Outcome of one `Heartbeat` call (phi.go): the installed snapshot, the
list of warning durations sent to the event stream, and whether a channel
send had to wait for a receiver.  The Go send `d.eventStream <- interval`
is a plain blocking send on an unbuffered channel: it completes immediately
iff a receiver is ready (`sinkReady`), and otherwise parks the caller until
one arrives. -/
structure HeartbeatResult where
  newState : state
  sent : List ℤ
  blocked : Bool

open Classical in
/-- Embedding of `Heartbeat` (phi.go) for one uncontended pass of the CAS
loop (the sequential semantics: the compare-and-swap succeeds). -/
noncomputable def Heartbeat (d : PhiAccuralFailureDetector) (oldState : state)
    (timestamp : ℤ) (sinkReady : Bool) : HeartbeatResult :=
  match oldState.timestamp with
  | none =>
      { newState := { history := d.firstHeartbeat, timestamp := some timestamp }
        sent := []
        blocked := false }
  | some latestTimestamp =>
      let interval := timestamp - latestTimestamp
      if isAvailableAt d oldState timestamp then
        let intervalMS := toMillis interval
        if d.acceptableHeartbeatPauseMS / 2 ≤ intervalMS ∧ d.eventStream = true then
          { newState :=
              { history := oldState.history.append intervalMS, timestamp := some timestamp }
            sent := [interval]
            blocked := !sinkReady }
        else
          { newState :=
              { history := oldState.history.append intervalMS, timestamp := some timestamp }
            sent := []
            blocked := false }
      else
        { newState := { history := oldState.history, timestamp := some timestamp }
          sent := []
          blocked := false }

/-- Configuration consistency established by `New` (phi.go): the validated
constraints together with the derived fields. -/
structure WellFormed (d : PhiAccuralFailureDetector) : Prop where
  threshold_pos : 0 < d.threshold
  maxSampleSize_pos : 1 ≤ d.maxSampleSize
  minStdDeviation_pos : 0 < d.minStdDeviation
  acceptableHeartbeatPause_nonneg : 0 ≤ d.acceptableHeartbeatPause
  firstHeartbeatEstimate_pos : 0 < d.firstHeartbeatEstimate
  firstHeartbeat_eq : d.firstHeartbeat = initHeartbeat d.maxSampleSize d.firstHeartbeatEstimate
  acceptableHeartbeatPauseMS_eq : d.acceptableHeartbeatPauseMS = toMillis d.acceptableHeartbeatPause
  minStdDeviationMS_eq : d.minStdDeviationMS = toMillis d.minStdDeviation

theorem New_wellFormed {th : ℝ} {m : ℕ} {msd ap fhe : ℤ} {es : Bool}
    {d : PhiAccuralFailureDetector} {s0 : state}
    (h : New th m msd ap fhe es = some (d, s0)) :
    WellFormed d ∧ s0 = { history := d.firstHeartbeat, timestamp := none } := by
  unfold New at h
  split_ifs at h with h1 h2 h3 h4 h5
  injection h with h
  injection h with hd hs
  subst hd
  subst hs
  refine ⟨⟨?_, ?_, ?_, ?_, ?_, rfl, rfl, rfl⟩, rfl⟩
  · exact lt_of_not_le h1
  · dsimp only
    omega
  · dsimp only
    omega
  · dsimp only
    omega
  · dsimp only
    omega

/-- Detector snapshots reachable by any sequence of operations: the initial
snapshot installed by `New`, followed by arbitrary `Heartbeat` calls (the
query operations do not change the snapshot). -/
inductive Reachable (d : PhiAccuralFailureDetector) : state → Prop where
  | init : Reachable d { history := d.firstHeartbeat, timestamp := none }
  | heartbeat (s : state) (timestamp : ℤ) (sinkReady : Bool) :
      Reachable d s → Reachable d (Heartbeat d s timestamp sinkReady).newState

/-- Histories reachable from `newHeartbeatHistory maxSampleSize` by any
sequence of `append` calls with `uint64` samples. -/
inductive ReachableHistory (maxSampleSize : ℕ) : heartbeatHistory → Prop where
  | init : ReachableHistory maxSampleSize (newHeartbeatHistory maxSampleSize)
  | append (h : heartbeatHistory) (interval : ℕ) :
      ReachableHistory maxSampleSize h → interval < U64 →
      ReachableHistory maxSampleSize (h.append interval)

/-- Exponent appearing in the logistic approximation used by `phi`. -/
noncomputable def phiExponent (y : ℝ) : ℝ := y * (1.5976 + 0.070566 * y * y)

/-- Both branches of `phi` compute the same real number
`log10 (1 + exp (phiExponent y))` with `y = (t - m) / s`: for
`e = exp (-phiExponent y)` one has `1 - 1 / (1 + e) = e / (1 + e)`, so the
two logarithm arguments coincide. -/
theorem phi_closed_form (t m s : ℝ) :
    phi t m s = Real.logb 10 (1 + Real.exp (phiExponent ((t - m) / s))) := by
  unfold phi phiExponent
  set y := (t - m) / s with hy
  simp only [neg_mul, Real.exp_neg]
  set E := Real.exp (y * (1.5976 + 0.070566 * y * y)) with hEdef
  have hEpos : 0 < E := Real.exp_pos _
  have hEne : E ≠ 0 := ne_of_gt hEpos
  have h1Ene : (1 : ℝ) + E ≠ 0 := by positivity
  have h1Einv : (0 : ℝ) < 1 + E⁻¹ := by positivity
  have harg : E⁻¹ / (1 + E⁻¹) = (1 + E)⁻¹ := by
    rw [div_eq_iff (ne_of_gt h1Einv), inv_eq_one_div, inv_eq_one_div,
      div_mul_eq_mul_div, eq_div_iff h1Ene]
    field_simp
    ring
  have harg2 : 1 - 1 / (1 + E⁻¹) = (1 + E)⁻¹ := by
    rw [sub_eq_iff_eq_add, inv_eq_one_div, div_add_div _ _ h1Ene (ne_of_gt h1Einv),
      eq_div_iff (mul_ne_zero h1Ene (ne_of_gt h1Einv))]
    field_simp
    ring
  split_ifs with hcond
  · rw [harg, Real.logb_inv, neg_neg]
  · rw [harg2, Real.logb_inv, neg_neg]

theorem phiExponent_mono {y1 y2 : ℝ} (h : y1 ≤ y2) :
    phiExponent y1 ≤ phiExponent y2 := by
  unfold phiExponent
  nlinarith [mul_nonneg (sub_nonneg.mpr h) (sq_nonneg (y1 + y2)),
    mul_nonneg (sub_nonneg.mpr h) (sq_nonneg y1),
    mul_nonneg (sub_nonneg.mpr h) (sq_nonneg y2)]

theorem phiExponent_nonpos {y : ℝ} (h : y ≤ 0) : phiExponent y ≤ 0 := by
  unfold phiExponent
  nlinarith [sq_nonneg y]

theorem phi_lt_one_of_le {t m s : ℝ} (h : t ≤ m) (hs : 0 < s) : phi t m s < 1 := by
  rw [phi_closed_form]
  have hy : (t - m) / s ≤ 0 :=
    div_nonpos_iff.mpr (Or.inr ⟨by linarith, hs.le⟩)
  have hE : Real.exp (phiExponent ((t - m) / s)) ≤ 1 :=
    Real.exp_le_one_iff.mpr (phiExponent_nonpos hy)
  have hEpos : 0 < Real.exp (phiExponent ((t - m) / s)) := Real.exp_pos _
  have step : Real.logb 10 (1 + Real.exp (phiExponent ((t - m) / s))) ≤ Real.logb 10 2 :=
    Real.logb_le_logb_of_le (by norm_num) (by positivity) (by linarith)
  have h2 : Real.logb 10 2 < 1 := by
    rw [Real.logb, div_lt_one (Real.log_pos (by norm_num))]
    exact Real.log_lt_log (by norm_num) (by norm_num)
  linarith

theorem le_phi {t m s T : ℝ} (hy : 0 ≤ (t - m) / s)
    (h : T * Real.log 10 ≤ ((t - m) / s) * 1.5976) : T ≤ phi t m s := by
  rw [phi_closed_form]
  have hgy : ((t - m) / s) * 1.5976 ≤ phiExponent ((t - m) / s) := by
    unfold phiExponent
    nlinarith [mul_nonneg (mul_nonneg hy hy) hy]
  have hlog10 : 0 < Real.log 10 := Real.log_pos (by norm_num)
  have h1 : T ≤ phiExponent ((t - m) / s) / Real.log 10 := by
    rw [le_div_iff₀ hlog10]
    linarith
  have h2 : phiExponent ((t - m) / s) / Real.log 10 =
      Real.logb 10 (Real.exp (phiExponent ((t - m) / s))) := by
    rw [Real.logb, Real.log_exp]
  have h3 : Real.logb 10 (Real.exp (phiExponent ((t - m) / s))) ≤
      Real.logb 10 (1 + Real.exp (phiExponent ((t - m) / s))) :=
    Real.logb_le_logb_of_le (by norm_num) (Real.exp_pos _)
      (by linarith [Real.exp_pos (phiExponent ((t - m) / s))])
  linarith

theorem phiAt_none (d : PhiAccuralFailureDetector) (h : heartbeatHistory) (now : ℤ) :
    phiAt d { history := h, timestamp := none } now = 0 := rfl

theorem phiAt_some (d : PhiAccuralFailureDetector) (h : heartbeatHistory) (ts now : ℤ) :
    phiAt d { history := h, timestamp := some ts } now =
      phi (toMillis (now - ts) : ℝ) (h.mean + (d.acceptableHeartbeatPauseMS : ℝ))
        (ensureValidStdDeviation d h.stdDeviation) := rfl

theorem Heartbeat_none (d : PhiAccuralFailureDetector) (h : heartbeatHistory)
    (now : ℤ) (r : Bool) :
    Heartbeat d { history := h, timestamp := none } now r =
      { newState := { history := d.firstHeartbeat, timestamp := some now }
        sent := []
        blocked := false } := rfl

open Classical in
theorem Heartbeat_some_avail (d : PhiAccuralFailureDetector) (h : heartbeatHistory)
    (ts now : ℤ) (r : Bool)
    (ha : isAvailableAt d { history := h, timestamp := some ts } now)
    (hq : d.acceptableHeartbeatPauseMS / 2 ≤ toMillis (now - ts) ∧ d.eventStream = true) :
    Heartbeat d { history := h, timestamp := some ts } now r =
      { newState :=
          { history := h.append (toMillis (now - ts)), timestamp := some now }
        sent := [now - ts]
        blocked := !r } := by
  show (if isAvailableAt d { history := h, timestamp := some ts } now then _ else _) = _
  rw [if_pos ha]
  show (if d.acceptableHeartbeatPauseMS / 2 ≤ toMillis (now - ts) ∧ d.eventStream = true
    then _ else _) = _
  rw [if_pos hq]

open Classical in
theorem Heartbeat_some_avail_quiet (d : PhiAccuralFailureDetector) (h : heartbeatHistory)
    (ts now : ℤ) (r : Bool)
    (ha : isAvailableAt d { history := h, timestamp := some ts } now)
    (hq : ¬ (d.acceptableHeartbeatPauseMS / 2 ≤ toMillis (now - ts) ∧ d.eventStream = true)) :
    Heartbeat d { history := h, timestamp := some ts } now r =
      { newState :=
          { history := h.append (toMillis (now - ts)), timestamp := some now }
        sent := []
        blocked := false } := by
  show (if isAvailableAt d { history := h, timestamp := some ts } now then _ else _) = _
  rw [if_pos ha]
  show (if d.acceptableHeartbeatPauseMS / 2 ≤ toMillis (now - ts) ∧ d.eventStream = true
    then _ else _) = _
  rw [if_neg hq]

open Classical in
theorem Heartbeat_some_unavail (d : PhiAccuralFailureDetector) (h : heartbeatHistory)
    (ts now : ℤ) (r : Bool)
    (ha : ¬ isAvailableAt d { history := h, timestamp := some ts } now) :
    Heartbeat d { history := h, timestamp := some ts } now r =
      { newState := { history := h, timestamp := some now }
        sent := []
        blocked := false } := by
  show (if isAvailableAt d { history := h, timestamp := some ts } now then _ else _) = _
  rw [if_neg ha]

/-- Bootstrap history produced by a 500ms first-heartbeat estimate with
sample capacity 200 (the configuration of the repository's usage example). -/
def B500 : heartbeatHistory :=
  { maxSampleSize := 200
    intervals := [375, 625]
    intervalSum := 1000
    squaredIntervalSum := 531250 }

theorem B500_eq_initHeartbeat : B500 = initHeartbeat 200 500000000 := by decide

theorem B500_mean : B500.mean = 500 := by
  show ((1000 : ℕ) : ℝ) / (([375, 625] : List ℕ).length : ℝ) = 500
  norm_num

theorem B500_variance : B500.variance = 15625 := by
  show ((531250 : ℕ) : ℝ) / (([375, 625] : List ℕ).length : ℝ) - B500.mean * B500.mean = 15625
  rw [B500_mean]
  norm_num

theorem B500_stdDeviation : B500.stdDeviation = 125 := by
  show Real.sqrt B500.variance = 125
  rw [B500_variance, show (15625 : ℝ) = 125 ^ 2 by norm_num,
    Real.sqrt_sq (by norm_num : (0 : ℝ) ≤ 125)]

/-- Concrete detector fixture matching the repository's usage example:
threshold 8, capacity 200, 500ms minimum standard deviation, zero acceptable
heartbeat pause, 500ms first-heartbeat estimate, a configured warning sink. -/
def dAvail : PhiAccuralFailureDetector :=
  { threshold := 8
    maxSampleSize := 200
    minStdDeviation := 500000000
    acceptableHeartbeatPause := 0
    firstHeartbeatEstimate := 500000000
    eventStream := true
    firstHeartbeat := B500
    acceptableHeartbeatPauseMS := 0
    minStdDeviationMS := 500 }

theorem dAvail_wellFormed : WellFormed dAvail :=
  ⟨by norm_num [dAvail], by decide, by decide, by decide, by decide,
    B500_eq_initHeartbeat, by decide, by decide⟩

/-- Same fixture with a 1ms acceptable heartbeat pause, whose millisecond
value 1 is odd, exercising the truncating division in the warning test. -/
def dOdd : PhiAccuralFailureDetector :=
  { threshold := 8
    maxSampleSize := 200
    minStdDeviation := 500000000
    acceptableHeartbeatPause := 1000000
    firstHeartbeatEstimate := 500000000
    eventStream := true
    firstHeartbeat := B500
    acceptableHeartbeatPauseMS := 1
    minStdDeviationMS := 500 }

theorem dOdd_wellFormed : WellFormed dOdd :=
  ⟨by norm_num [dOdd], by decide, by decide, by decide, by decide,
    B500_eq_initHeartbeat, by decide, by decide⟩

theorem ensureValid_dAvail : ensureValidStdDeviation dAvail 125 = 500 := by
  show max (125 : ℝ) ((500 : ℕ) : ℝ) = 500
  rw [max_eq_right (by norm_num)]
  norm_num

theorem ensureValid_dOdd : ensureValidStdDeviation dOdd 125 = 500 := by
  show max (125 : ℝ) ((500 : ℕ) : ℝ) = 500
  rw [max_eq_right (by norm_num)]
  norm_num

theorem phiAt_dAvail (now : ℤ) :
    phiAt dAvail { history := B500, timestamp := some 0 } now =
      phi (toMillis now : ℝ) 500 500 := by
  rw [phiAt_some, B500_mean, B500_stdDeviation, ensureValid_dAvail, sub_zero]
  norm_num [dAvail]

theorem phiAt_dOdd (now : ℤ) :
    phiAt dOdd { history := B500, timestamp := some 0 } now =
      phi (toMillis now : ℝ) 501 500 := by
  rw [phiAt_some, B500_mean, B500_stdDeviation, ensureValid_dOdd, sub_zero]
  norm_num [dOdd]

theorem newHH_append_intervals (m a : ℕ) :
    ((newHeartbeatHistory m).append a).intervals = [a] := by
  unfold heartbeatHistory.append newHeartbeatHistory
  simp

theorem initHeartbeat_intervals (m : ℕ) (est : ℤ) :
    (initHeartbeat m est).intervals =
      if 1 < m then
        [toMillis est - toMillis est / 4, toMillis est + toMillis est / 4]
      else [toMillis est + toMillis est / 4] := by
  unfold initHeartbeat
  set e := toMillis est with he
  have hlen : ((newHeartbeatHistory m).append (e - e / 4)).intervals.length = 1 := by
    rw [newHH_append_intervals]
    rfl
  have hmaxeq : ((newHeartbeatHistory m).append (e - e / 4)).maxSampleSize = m := rfl
  by_cases h1 : 1 < m
  · rw [if_pos h1, append_intervals_lt _ _ (by rw [hlen, hmaxeq]; exact h1),
      newHH_append_intervals]
    rfl
  · rw [if_neg h1, append_intervals_ge _ _ (by rw [hlen, hmaxeq]; omega),
      newHH_append_intervals]
    rfl

theorem initHeartbeat_length (m : ℕ) (est : ℤ) :
    (initHeartbeat m est).intervals.length = if 1 < m then 2 else 1 := by
  rw [initHeartbeat_intervals]
  split_ifs <;> rfl

theorem append_length_one (h : heartbeatHistory) (x : ℕ) :
    1 ≤ (h.append x).intervals.length := by
  rw [append_length]
  split_ifs <;> omega

theorem append_length_two (h : heartbeatHistory) (x : ℕ)
    (h2 : 2 ≤ h.intervals.length) : 2 ≤ (h.append x).intervals.length := by
  rw [append_length]
  split_ifs with hlt
  · omega
  · rw [List.length_tail]
    omega

/-- The history installed by one `Heartbeat` call is the bootstrap history,
an append to the previous history, or the previous history unchanged. -/
theorem Heartbeat_history_cases (d : PhiAccuralFailureDetector) (s : state)
    (now : ℤ) (r : Bool) :
    (Heartbeat d s now r).newState.history = d.firstHeartbeat ∨
      (∃ x, (Heartbeat d s now r).newState.history = s.history.append x) ∨
      (Heartbeat d s now r).newState.history = s.history := by
  obtain ⟨h, tsopt⟩ := s
  cases tsopt with
  | none => exact Or.inl (by rw [Heartbeat_none])
  | some ts =>
      by_cases ha : isAvailableAt d { history := h, timestamp := some ts } now
      · by_cases hq : d.acceptableHeartbeatPauseMS / 2 ≤ toMillis (now - ts) ∧
            d.eventStream = true
        · exact Or.inr (Or.inl ⟨toMillis (now - ts),
            by rw [Heartbeat_some_avail _ _ _ _ _ ha hq]⟩)
        · exact Or.inr (Or.inl ⟨toMillis (now - ts),
            by rw [Heartbeat_some_avail_quiet _ _ _ _ _ ha hq]⟩)
      · exact Or.inr (Or.inr (by rw [Heartbeat_some_unavail _ _ _ _ _ ha]))

/-- Every `Heartbeat` call installs the recording time as the snapshot
timestamp, in all three cases of the update. -/
theorem Heartbeat_timestamp (d : PhiAccuralFailureDetector) (s : state)
    (now : ℤ) (r : Bool) :
    (Heartbeat d s now r).newState.timestamp = some now := by
  obtain ⟨h, tsopt⟩ := s
  cases tsopt with
  | none => rw [Heartbeat_none]
  | some ts =>
      by_cases ha : isAvailableAt d { history := h, timestamp := some ts } now
      · by_cases hq : d.acceptableHeartbeatPauseMS / 2 ≤ toMillis (now - ts) ∧
            d.eventStream = true
        · rw [Heartbeat_some_avail _ _ _ _ _ ha hq]
        · rw [Heartbeat_some_avail_quiet _ _ _ _ _ ha hq]
      · rw [Heartbeat_some_unavail _ _ _ _ _ ha]

theorem phi_500_500_lt_8 : phi (500 : ℝ) 500 500 < 8 :=
  lt_trans (phi_lt_one_of_le le_rfl (by norm_num)) (by norm_num)

theorem avail_dAvail_500 :
    isAvailableAt dAvail { history := B500, timestamp := some 0 } 500000000 := by
  unfold isAvailableAt
  rw [phiAt_dAvail, show toMillis 500000000 = 500 from by decide]
  show phi ((500 : ℕ) : ℝ) 500 500 < (8 : ℝ)
  norm_num [phi_500_500_lt_8]

theorem avail_dOdd_0 :
    isAvailableAt dOdd { history := B500, timestamp := some 0 } 0 := by
  unfold isAvailableAt
  rw [phiAt_dOdd, show toMillis 0 = 0 from by decide]
  show phi ((0 : ℕ) : ℝ) 501 500 < (8 : ℝ)
  have h1 : phi ((0 : ℕ) : ℝ) 501 500 < 1 :=
    phi_lt_one_of_le (by norm_num) (by norm_num)
  linarith

theorem log_ten_le_nine : Real.log 10 ≤ 9 := by
  linarith [Real.log_le_sub_one_of_pos (show (0 : ℝ) < 10 by norm_num)]

theorem unavail_dAvail_hour :
    ¬ isAvailableAt dAvail { history := B500, timestamp := some 0 } 3600000000000 := by
  unfold isAvailableAt
  rw [phiAt_dAvail, show toMillis 3600000000000 = 3600000 from by decide]
  have h8 : (8 : ℝ) ≤ phi ((3600000 : ℕ) : ℝ) 500 500 := by
    apply le_phi
    · push_cast
      norm_num
    · have hr : (72 : ℝ) ≤ ((((3600000 : ℕ) : ℝ) - 500) / 500) * 1.5976 := by
        push_cast
        norm_num
      nlinarith [Real.log_pos (show (1 : ℝ) < 10 by norm_num), log_ten_le_nine]
  exact not_lt.mpr (by exact_mod_cast h8)

/-- Suspicion formula as written in the specification (section 4.2): written
from the spec text, to be compared with the source's `phi`. -/
noncomputable def suspicionFormulaSpec (t m s : ℝ) : ℝ :=
  let y := (t - m) / s
  let e := Real.exp (-y * (1.5976 + 0.070566 * y * y))
  if m < t then -Real.logb 10 (e / (1 + e))
  else -Real.logb 10 (1 - 1 / (1 + e))

/-- Suspicion level as described by the specification: written from the spec
text of `suspicion(now)`.  Unmonitored resources score exactly 0; otherwise
the formula is applied to the elapsed milliseconds, the history mean plus the
acceptable pause, and the spread floored at the configured minimum. -/
noncomputable def suspicionSpec (d : PhiAccuralFailureDetector) (s : state)
    (now : ℤ) : ℝ :=
  match s.timestamp with
  | none => 0
  | some lastTimestamp =>
      let elapsedMs : ℝ := (toMillis (now - lastTimestamp) : ℝ)
      let meanMs : ℝ := s.history.mean + (d.acceptableHeartbeatPauseMS : ℝ)
      let stdDevMs : ℝ := max s.history.stdDeviation (d.minStdDeviationMS : ℝ)
      suspicionFormulaSpec elapsedMs meanMs stdDevMs

/-- C1: for a Monitoring snapshot the suspicion level `phiAt` equals the
spec's closed form applied to elapsed milliseconds, history mean plus
acceptable pause, and the spread floored at the configured minimum; for an
Unmonitored snapshot it is exactly 0. -/
theorem c1_phiAt_matches_spec (d : PhiAccuralFailureDetector) (s : state)
    (now : ℤ) : phiAt d s now = suspicionSpec d s now := by
  obtain ⟨h, tsopt⟩ := s
  cases tsopt with
  | none => rfl
  | some ts => rfl

/-- C9: for fixed mean and strictly positive spread, `phi` is monotonically
non-decreasing in the elapsed time. -/
theorem c9_phi_monotone (m s t1 t2 : ℝ) (hs : 0 < s) (h : t1 ≤ t2) :
    phi t1 m s ≤ phi t2 m s := by
  rw [phi_closed_form, phi_closed_form]
  have hy : (t1 - m) / s ≤ (t2 - m) / s := by
    gcongr
  have hexp := Real.exp_le_exp.mpr (phiExponent_mono hy)
  exact Real.logb_le_logb_of_le (by norm_num) (by positivity) (by linarith)

/-- C9 witness: monotonicity applied at the concrete inputs
`t1 = 0, t2 = 2, m = 5, s = 1`. -/
theorem c9_phi_monotone_witness :
    (0 : ℝ) < 1 ∧ (0 : ℝ) ≤ 2 ∧ phi 0 5 1 ≤ phi 2 5 1 :=
  ⟨by norm_num, by norm_num, c9_phi_monotone 5 1 0 2 (by norm_num) (by norm_num)⟩

/-- Detector fixture identical to `dAvail` but with no warning sink
configured (a nil channel in the Go code). -/
def dNil : PhiAccuralFailureDetector :=
  { dAvail with eventStream := false }

theorem phiAt_dNil (now : ℤ) :
    phiAt dNil { history := B500, timestamp := some 0 } now =
      phi (toMillis now : ℝ) 500 500 := by
  rw [phiAt_some, B500_mean, B500_stdDeviation, sub_zero]
  show phi _ (500 + ((0 : ℕ) : ℝ)) (max (125 : ℝ) ((500 : ℕ) : ℝ)) = _
  rw [max_eq_right (by norm_num)]
  norm_num

theorem avail_dNil_500 :
    isAvailableAt dNil { history := B500, timestamp := some 0 } 500000000 := by
  unfold isAvailableAt
  rw [phiAt_dNil, show toMillis 500000000 = 500 from by decide]
  show phi ((500 : ℕ) : ℝ) 500 500 < (8 : ℝ)
  norm_num [phi_500_500_lt_8]

/-- C2: evaluation of the code at the failing input.  With the example
configuration (acceptable pause 0, warning sink configured), a heartbeat
recorded 500ms after the previous one while the resource is judged available
reaches the warning send; with no receiver ready the bare channel send
`d.eventStream <- interval` blocks the `Heartbeat` call instead of dropping
the event.  A nil sink is never sent to, so that call does not block. -/
theorem c2_heartbeat_send_blocks :
    (Heartbeat dAvail { history := B500, timestamp := some 0 }
      500000000 false).blocked = true ∧
    (Heartbeat dNil { history := B500, timestamp := some 0 }
      500000000 false).blocked = false := by
  constructor
  · rw [Heartbeat_some_avail dAvail B500 0 500000000 false avail_dAvail_500
      ⟨by decide, rfl⟩]
    rfl
  · rw [Heartbeat_some_avail_quiet dNil B500 0 500000000 false avail_dNil_500
      (by simp [dNil, dAvail])]

/-- C10: a query 1ms earlier than the last-heartbeat timestamp does not see a
negative or near-zero elapsed time: `toMillis` of the negative duration is
the out-of-range float64-to-uint64 conversion, yielding `2^64 - 1`
milliseconds, and the resulting phi exceeds the configured threshold 8, so
`isAvailableAt` is false for a query that precedes the last heartbeat. -/
theorem c10_negative_elapsed_huge :
    toMillis (0 - 1000000) = U64 - 1 ∧
    2 ^ 63 ≤ toMillis (0 - 1000000) ∧
    ¬ isAvailableAt dAvail { history := B500, timestamp := some 1000000 } 0 := by
  refine ⟨by decide, by decide, ?_⟩
  unfold isAvailableAt
  rw [phiAt_some, B500_mean, B500_stdDeviation]
  show ¬ phi ((toMillis (0 - 1000000) : ℕ) : ℝ)
      (500 + ((0 : ℕ) : ℝ)) (max (125 : ℝ) ((500 : ℕ) : ℝ)) < (8 : ℝ)
  rw [max_eq_right (by norm_num), show toMillis (0 - 1000000) = 18446744073709551615 from by decide]
  have h8 : (8 : ℝ) ≤ phi ((18446744073709551615 : ℕ) : ℝ) (500 + ((0 : ℕ) : ℝ)) 500 := by
    apply le_phi
    · push_cast
      norm_num
    · have hr : (72 : ℝ) ≤
          ((((18446744073709551615 : ℕ) : ℝ) - (500 + ((0 : ℕ) : ℝ))) / 500) * 1.5976 := by
        push_cast
        norm_num
      nlinarith [Real.log_pos (show (1 : ℝ) < 10 by norm_num), log_ten_le_nine]
  exact not_lt.mpr h8

/-- C3 counterexample: with a 1ms acceptable pause (whose half is 0.5ms) a
heartbeat measured at interval 0 is published — the warning is sent even
though the measured interval is strictly below half the acceptable pause,
because the code compares against the truncating integer division
`acceptableHeartbeatPauseMS / 2 = 0`.  This falsifies the claim's "published
iff the interval is at least half of acceptableHeartbeatPause". -/
theorem c3_warning_half_counterexample :
    (Heartbeat dOdd { history := B500, timestamp := some 0 } 0 true).sent =
      [(0 : ℤ) - 0] ∧
    ¬ (dOdd.acceptableHeartbeatPause / 2 ≤ (0 : ℤ) - 0) := by
  constructor
  · rw [Heartbeat_some_avail dOdd B500 0 0 true avail_dOdd_0 ⟨by decide, rfl⟩]
  · decide

/-- C3 (amended): for a heartbeat recorded while Monitoring, a warning
carrying the measured interval is published exactly once iff a sink is
configured, the resource is judged available at the recording instant, and
the measured interval in milliseconds is at least the truncating integer
half `acceptableHeartbeatPauseMS / 2`; at most one warning is ever sent, and
when the pause is 0 every interval qualifies, so the condition reduces to
"sink configured and available". -/
theorem c3_warning_iff (d : PhiAccuralFailureDetector) (s : state)
    (ts now : ℤ) (r : Bool) (hmon : s.timestamp = some ts) :
    ((Heartbeat d s now r).sent = [now - ts] ↔
      (d.eventStream = true ∧ isAvailableAt d s now ∧
        d.acceptableHeartbeatPauseMS / 2 ≤ toMillis (now - ts))) ∧
    ((Heartbeat d s now r).sent = [now - ts] ∨ (Heartbeat d s now r).sent = []) ∧
    (d.acceptableHeartbeatPauseMS = 0 →
      ((Heartbeat d s now r).sent = [now - ts] ↔
        (d.eventStream = true ∧ isAvailableAt d s now))) := by
  obtain ⟨h, tsopt⟩ := s
  dsimp only at hmon
  subst hmon
  by_cases ha : isAvailableAt d { history := h, timestamp := some ts } now
  · by_cases hq : d.acceptableHeartbeatPauseMS / 2 ≤ toMillis (now - ts) ∧
        d.eventStream = true
    · rw [Heartbeat_some_avail _ _ _ _ _ ha hq]
      refine ⟨?_, Or.inl rfl, fun _ => ?_⟩
      · simp only [true_iff]
        tauto
      · simp only [true_iff]
        tauto
    · rw [Heartbeat_some_avail_quiet _ _ _ _ _ ha hq]
      refine ⟨?_, Or.inr rfl, fun hp0 => ?_⟩
      · simp only [iff_iff_implies_and_implies]
        constructor
        · intro hcontra
          exact absurd hcontra (by simp)
        · intro hrhs
          exact absurd ⟨hrhs.2.2, hrhs.1⟩ hq
      · have h0 : d.acceptableHeartbeatPauseMS / 2 ≤ toMillis (now - ts) := by
          rw [hp0]
          exact Nat.zero_le _
        simp only [iff_iff_implies_and_implies]
        constructor
        · intro hcontra
          exact absurd hcontra (by simp)
        · intro hrhs
          exact absurd ⟨h0, hrhs.1⟩ hq
  · rw [Heartbeat_some_unavail _ _ _ _ _ ha]
    refine ⟨?_, Or.inr rfl, fun _ => ?_⟩
    · simp only [iff_iff_implies_and_implies]
      constructor
      · intro hcontra
        exact absurd hcontra (by simp)
      · intro hrhs
        exact absurd hrhs.2.1 ha
    · simp only [iff_iff_implies_and_implies]
      constructor
      · intro hcontra
        exact absurd hcontra (by simp)
      · intro hrhs
        exact absurd hrhs.2 ha

/-- C3 witness: the amended theorem applied at a concrete Monitoring state
(the 500ms-estimate bootstrap history, last heartbeat at time 0). -/
theorem c3_warning_iff_witness :
    ({ history := B500, timestamp := some 0 } : state).timestamp = some 0 ∧
    (((Heartbeat dAvail { history := B500, timestamp := some 0 }
        500000000 true).sent = [(500000000 : ℤ) - 0] ↔
      (dAvail.eventStream = true ∧
        isAvailableAt dAvail { history := B500, timestamp := some 0 } 500000000 ∧
        dAvail.acceptableHeartbeatPauseMS / 2 ≤ toMillis ((500000000 : ℤ) - 0))) ∧
    ((Heartbeat dAvail { history := B500, timestamp := some 0 }
        500000000 true).sent = [(500000000 : ℤ) - 0] ∨
      (Heartbeat dAvail { history := B500, timestamp := some 0 }
        500000000 true).sent = []) ∧
    (dAvail.acceptableHeartbeatPauseMS = 0 →
      ((Heartbeat dAvail { history := B500, timestamp := some 0 }
          500000000 true).sent = [(500000000 : ℤ) - 0] ↔
        (dAvail.eventStream = true ∧
          isAvailableAt dAvail { history := B500, timestamp := some 0 } 500000000)))) :=
  ⟨rfl, c3_warning_iff dAvail { history := B500, timestamp := some 0 }
    0 500000000 true rfl⟩

/-- C8: a heartbeat recorded while Monitoring but judged unavailable leaves
the history untouched (only the timestamp changes), and in every case the
installed snapshot's timestamp is the recording time. -/
theorem c8_unavailable_keeps_history (d : PhiAccuralFailureDetector)
    (s : state) (ts now : ℤ) (r : Bool)
    (hmon : s.timestamp = some ts) (hun : ¬ isAvailableAt d s now) :
    (Heartbeat d s now r).newState.history = s.history ∧
    (∀ s2 : state, ∀ r2 : Bool,
      (Heartbeat d s2 now r2).newState.timestamp = some now) := by
  constructor
  · obtain ⟨h, tsopt⟩ := s
    dsimp only at hmon
    subst hmon
    rw [Heartbeat_some_unavail _ _ _ _ _ hun]
  · intro s2 r2
    exact Heartbeat_timestamp d s2 now r2

/-- C8 witness: the frame property applied at a concrete unavailable state
(bootstrap history, last heartbeat at time 0, queried one hour later, which
drives phi far above the threshold 8). -/
theorem c8_unavailable_keeps_history_witness :
    ({ history := B500, timestamp := some 0 } : state).timestamp = some 0 ∧
    ¬ isAvailableAt dAvail { history := B500, timestamp := some 0 } 3600000000000 ∧
    (Heartbeat dAvail { history := B500, timestamp := some 0 }
      3600000000000 false).newState.history = B500 ∧
    (Heartbeat dAvail { history := B500, timestamp := some 0 }
      3600000000000 false).newState.timestamp = some 3600000000000 :=
  ⟨rfl, unavail_dAvail_hour,
    (c8_unavailable_keeps_history dAvail _ 0 _ false rfl unavail_dAvail_hour).1,
    (c8_unavailable_keeps_history dAvail _ 0 _ false rfl unavail_dAvail_hour).2 _ false⟩

/-- Validly constructed detector with the minimal legal sample capacity 1. -/
def d1 : PhiAccuralFailureDetector :=
  { threshold := 8
    maxSampleSize := 1
    minStdDeviation := 500000000
    acceptableHeartbeatPause := 0
    firstHeartbeatEstimate := 500000000
    eventStream := false
    firstHeartbeat := initHeartbeat 1 500000000
    acceptableHeartbeatPauseMS := 0
    minStdDeviationMS := 500 }

/-- C4 counterexample: with `maxSampleSize = 1` — accepted by the validating
constructor — the second bootstrap append evicts the first sample, so the
initial reachable snapshot's history holds a single sample, not two. -/
theorem c4_single_sample_counterexample :
    WellFormed d1 ∧
    Reachable d1 { history := d1.firstHeartbeat, timestamp := none } ∧
    ¬ 2 ≤ ({ history := d1.firstHeartbeat, timestamp := none } : state).history.intervals.length := by
  refine ⟨⟨by norm_num [d1], by decide, by decide, by decide, by decide,
    rfl, by decide, by decide⟩, Reachable.init, by decide⟩

/-- C4 (amended): for a well-formed detector, every reachable snapshot's
history holds at least one sample (so `mean` and `variance` are never
evaluated on a zero sample count), and at least two samples provided
`maxSampleSize` is at least 2. -/
theorem c4_reachable_min_samples (d : PhiAccuralFailureDetector) (s : state)
    (hw : WellFormed d) (hr : Reachable d s) :
    1 ≤ s.history.intervals.length ∧
    (2 ≤ d.maxSampleSize → 2 ≤ s.history.intervals.length) := by
  have hfb1 : 1 ≤ d.firstHeartbeat.intervals.length := by
    rw [hw.firstHeartbeat_eq, initHeartbeat_length]
    split_ifs <;> omega
  have hfb2 : 2 ≤ d.maxSampleSize → 2 ≤ d.firstHeartbeat.intervals.length := by
    intro h2
    rw [hw.firstHeartbeat_eq, initHeartbeat_length, if_pos (by omega)]
  induction hr with
  | init => exact ⟨hfb1, hfb2⟩
  | heartbeat s' now r hr' ih =>
      obtain ⟨ih1, ih2⟩ := ih
      rcases Heartbeat_history_cases d s' now r with hc | ⟨x, hc⟩ | hc <;> rw [hc]
      · exact ⟨hfb1, hfb2⟩
      · exact ⟨append_length_one _ x, fun h2 => append_length_two _ x (ih2 h2)⟩
      · exact ⟨ih1, ih2⟩

/-- C4 witness: the amended invariant applied to the example detector
(capacity 200) at its initial snapshot. -/
theorem c4_reachable_min_samples_witness :
    WellFormed dAvail ∧ 2 ≤ dAvail.maxSampleSize ∧
    1 ≤ ({ history := dAvail.firstHeartbeat, timestamp := none } : state).history.intervals.length ∧
    2 ≤ ({ history := dAvail.firstHeartbeat, timestamp := none } : state).history.intervals.length :=
  ⟨dAvail_wellFormed, by decide,
    (c4_reachable_min_samples dAvail _ dAvail_wellFormed Reachable.init).1,
    (c4_reachable_min_samples dAvail _ dAvail_wellFormed Reachable.init).2 (by decide)⟩

theorem initHeartbeat_sums (m : ℕ) (est : ℤ) (hm : 2 ≤ m)
    (hb : toMillis est ≤ 2147483648) :
    (initHeartbeat m est).intervalSum = 2 * toMillis est ∧
    (initHeartbeat m est).squaredIntervalSum =
      (toMillis est - toMillis est / 4) * (toMillis est - toMillis est / 4) +
        (toMillis est + toMillis est / 4) * (toMillis est + toMillis est / 4) := by
  set e := toMillis est with he
  have hq : e / 4 ≤ e := Nat.div_le_self _ _
  have hmax1 : 1 ≤ (newHeartbeatHistory m).maxSampleSize := by
    simp only [newHeartbeatHistory]
    omega
  have base1 : (newHeartbeatHistory m).intervalSum =
      (newHeartbeatHistory m).intervals.sum % U64 := by
    simp [newHeartbeatHistory, U64]
  have base2 : (newHeartbeatHistory m).squaredIntervalSum =
      sumSq (newHeartbeatHistory m).intervals % U64 := by
    simp [newHeartbeatHistory, sumSq, U64]
  obtain ⟨s1, s2⟩ := append_sums (newHeartbeatHistory m) (e - e / 4) hmax1 base1 base2
  obtain ⟨t1, t2⟩ := append_sums ((newHeartbeatHistory m).append (e - e / 4)) (e + e / 4)
    (by rw [append_maxSampleSize]; exact hmax1) s1 s2
  have h1l : ((newHeartbeatHistory m).append (e - e / 4)).intervals.length = 1 := by
    rw [newHH_append_intervals]
    rfl
  have hint2 : (((newHeartbeatHistory m).append (e - e / 4)).append (e + e / 4)).intervals =
      [e - e / 4, e + e / 4] := by
    rw [append_intervals_lt _ _ (by
        rw [h1l, append_maxSampleSize]
        simp only [newHeartbeatHistory]
        omega),
      newHH_append_intervals]
    rfl
  have ha : e - e / 4 ≤ 2147483648 := by omega
  have hbb : e + e / 4 ≤ 2684354560 := by omega
  have hA : (e - e / 4) * (e - e / 4) ≤ 2147483648 * 2147483648 :=
    Nat.mul_le_mul ha ha
  have hB : (e + e / 4) * (e + e / 4) ≤ 2684354560 * 2684354560 :=
    Nat.mul_le_mul hbb hbb
  constructor
  · show (((newHeartbeatHistory m).append (e - e / 4)).append (e + e / 4)).intervalSum = 2 * e
    rw [t1, hint2]
    simp only [List.sum_cons, List.sum_nil, U64]
    omega
  · show (((newHeartbeatHistory m).append (e - e / 4)).append (e + e / 4)).squaredIntervalSum = _
    rw [t2, hint2]
    simp only [sumSq, List.map_cons, List.map_nil, List.sum_cons, List.sum_nil, U64]
    generalize hGA : (e - e / 4) * (e - e / 4) = A at hA ⊢
    generalize hGB : (e + e / 4) * (e + e / 4) = B at hB ⊢
    omega

/-- C5 counterexample: a strictly positive 3ms first-heartbeat estimate with
capacity 5 gives `estimateMs / 4 = 0`, so both bootstrap samples equal 3 and
the bootstrap standard deviation is exactly 0, not strictly positive as
claimed. -/
theorem c5_zero_spread_counterexample :
    (0 : ℤ) < 3000000 ∧ (1 : ℕ) ≤ 5 ∧
    (initHeartbeat 5 3000000).stdDeviation = 0 ∧
    ¬ 0 < (initHeartbeat 5 3000000).stdDeviation := by
  have he : initHeartbeat 5 3000000 =
      { maxSampleSize := 5
        intervals := [3, 3]
        intervalSum := 6
        squaredIntervalSum := 18 } := by decide
  have hmean : (initHeartbeat 5 3000000).mean = 3 := by
    rw [heartbeatHistory.mean, he]
    show ((6 : ℕ) : ℝ) / (([3, 3] : List ℕ).length : ℝ) = 3
    norm_num
  have hvar : (initHeartbeat 5 3000000).variance = 0 := by
    rw [heartbeatHistory.variance, hmean, he]
    show ((18 : ℕ) : ℝ) / (([3, 3] : List ℕ).length : ℝ) - 3 * 3 = 0
    norm_num
  have hstd : (initHeartbeat 5 3000000).stdDeviation = 0 := by
    rw [heartbeatHistory.stdDeviation, hvar, Real.sqrt_zero]
  exact ⟨by norm_num, by norm_num, hstd, by simp [hstd]⟩

/-- C5 (amended): for capacity at least 2 and a first-heartbeat estimate of
at least 4 milliseconds (and small enough that the uint64 squares cannot
wrap, at most 2^31 ms), the bootstrap history holds exactly the samples
`estimateMs - estimateMs/4` and `estimateMs + estimateMs/4`, its mean equals
`estimateMs`, and its standard deviation is `estimateMs/4 > 0`. -/
theorem c5_bootstrap_stats (m : ℕ) (est : ℤ) (hm : 2 ≤ m)
    (h4 : 4 ≤ toMillis est) (hb : toMillis est ≤ 2147483648) :
    (initHeartbeat m est).intervals =
      [toMillis est - toMillis est / 4, toMillis est + toMillis est / 4] ∧
    (initHeartbeat m est).mean = (toMillis est : ℝ) ∧
    (initHeartbeat m est).stdDeviation = ((toMillis est / 4 : ℕ) : ℝ) ∧
    0 < (initHeartbeat m est).stdDeviation := by
  obtain ⟨hsum, hsqsum⟩ := initHeartbeat_sums m est hm hb
  have hint : (initHeartbeat m est).intervals =
      [toMillis est - toMillis est / 4, toMillis est + toMillis est / 4] := by
    rw [initHeartbeat_intervals, if_pos (by omega)]
  set e := toMillis est with he
  have hq : e / 4 ≤ e := Nat.div_le_self _ _
  have hlen : (initHeartbeat m est).intervals.length = 2 := by
    rw [hint]
    rfl
  have hmean : (initHeartbeat m est).mean = (e : ℝ) := by
    rw [heartbeatHistory.mean, hsum, hlen]
    push_cast
    ring
  have hvar : (initHeartbeat m est).variance = ((e / 4 : ℕ) : ℝ) ^ 2 := by
    rw [heartbeatHistory.variance, hsqsum, hlen, hmean]
    push_cast [Nat.cast_sub hq]
    ring
  have hstd : (initHeartbeat m est).stdDeviation = ((e / 4 : ℕ) : ℝ) := by
    rw [heartbeatHistory.stdDeviation, hvar, Real.sqrt_sq (by positivity)]
  have hq1 : (1 : ℕ) ≤ e / 4 := by omega
  refine ⟨hint, hmean, hstd, ?_⟩
  rw [hstd]
  exact_mod_cast Nat.lt_of_lt_of_le Nat.zero_lt_one hq1

/-- C5 witness: the amended bootstrap statistics at the example
configuration, estimate 500ms and capacity 200. -/
theorem c5_bootstrap_stats_witness :
    (2 : ℕ) ≤ 200 ∧ 4 ≤ toMillis 500000000 ∧ toMillis 500000000 ≤ 2147483648 ∧
    ((initHeartbeat 200 500000000).intervals =
        [toMillis 500000000 - toMillis 500000000 / 4,
          toMillis 500000000 + toMillis 500000000 / 4] ∧
      (initHeartbeat 200 500000000).mean = (toMillis 500000000 : ℝ) ∧
      (initHeartbeat 200 500000000).stdDeviation =
        ((toMillis 500000000 / 4 : ℕ) : ℝ) ∧
      0 < (initHeartbeat 200 500000000).stdDeviation) :=
  ⟨by norm_num, by decide, by decide,
    c5_bootstrap_stats 200 500000000 (by norm_num) (by decide) (by decide)⟩

/-- C6: appending below capacity preserves the samples in order and adds the
new one at the end; appending at capacity drops exactly the oldest sample
(FIFO) before adding the new one, with the evicted value and its square
subtracted from the running sums, so both running sums again equal the
(uint64) sums over exactly the stored samples; the capacity is unchanged.
The original history itself is untouched — `append` is a pure function in
this embedding, mirroring the copy-on-write semantics of the source. -/
theorem c6_append_window (h : heartbeatHistory) (x : ℕ)
    (hmax : 1 ≤ h.maxSampleSize)
    (hsum : h.intervalSum = h.intervals.sum % U64)
    (hsq : h.squaredIntervalSum = sumSq h.intervals % U64) :
    (h.intervals.length < h.maxSampleSize →
      (h.append x).intervals = h.intervals ++ [x]) ∧
    (¬ h.intervals.length < h.maxSampleSize →
      (h.append x).intervals = h.intervals.tail ++ [x]) ∧
    (h.append x).intervalSum = (h.append x).intervals.sum % U64 ∧
    (h.append x).squaredIntervalSum = sumSq (h.append x).intervals % U64 ∧
    (h.append x).maxSampleSize = h.maxSampleSize :=
  ⟨append_intervals_lt h x, append_intervals_ge h x,
    (append_sums h x hmax hsum hsq).1, (append_sums h x hmax hsum hsq).2, rfl⟩

/-- Concrete two-sample history at capacity, used to evaluate the append
contract. -/
def hCap : heartbeatHistory :=
  { maxSampleSize := 2
    intervals := [3, 4]
    intervalSum := 7
    squaredIntervalSum := 25 }

/-- C6 witness: the append contract evaluated at a concrete two-sample
history at capacity, appending the sample 5, which evicts the oldest
sample 3. -/
theorem c6_append_window_witness :
    (1 ≤ hCap.maxSampleSize) ∧
    (hCap.intervalSum = hCap.intervals.sum % U64) ∧
    (hCap.squaredIntervalSum = sumSq hCap.intervals % U64) ∧
    ((hCap.intervals.length < hCap.maxSampleSize →
        (hCap.append 5).intervals = hCap.intervals ++ [5]) ∧
      (¬ hCap.intervals.length < hCap.maxSampleSize →
        (hCap.append 5).intervals = hCap.intervals.tail ++ [5]) ∧
      (hCap.append 5).intervalSum = (hCap.append 5).intervals.sum % U64 ∧
      (hCap.append 5).squaredIntervalSum = sumSq (hCap.append 5).intervals % U64 ∧
      (hCap.append 5).maxSampleSize = hCap.maxSampleSize) :=
  ⟨by decide, by decide, by decide,
    c6_append_window hCap 5 (by decide) (by decide) (by decide)⟩

/-- C7: for every history reachable from `newHeartbeatHistory maxSampleSize`
(capacity at least 1) by appends of uint64 samples, the running sum and
running sum-of-squares equal the (uint64) sum and sum of squares of exactly
the stored samples, the sample count never exceeds the capacity, and the
capacity never changes. -/
theorem c7_history_invariant (m : ℕ) (hm : 1 ≤ m) (h : heartbeatHistory)
    (hr : ReachableHistory m h) :
    h.intervalSum = h.intervals.sum % U64 ∧
    h.squaredIntervalSum = sumSq h.intervals % U64 ∧
    h.intervals.length ≤ m ∧
    h.maxSampleSize = m := by
  induction hr with
  | init =>
      refine ⟨by simp [newHeartbeatHistory, U64], by simp [newHeartbeatHistory, sumSq, U64],
        by simp [newHeartbeatHistory], rfl⟩
  | append h' x hr' hx ih =>
      obtain ⟨ih1, ih2, ih3, ih4⟩ := ih
      have hmax' : 1 ≤ h'.maxSampleSize := by omega
      obtain ⟨s1, s2⟩ := append_sums h' x hmax' ih1 ih2
      refine ⟨s1, s2, ?_, by rw [append_maxSampleSize, ih4]⟩
      rw [append_length]
      split_ifs with hlt
      · rw [ih4] at hlt
        omega
      · rw [ih4] at hlt
        rw [List.length_tail]
        omega

/-- C7 witness: the invariant after one append of the sample 3 to a fresh
capacity-2 history. -/
theorem c7_history_invariant_witness :
    (1 : ℕ) ≤ 2 ∧
    ((newHeartbeatHistory 2).append 3).intervalSum =
      ((newHeartbeatHistory 2).append 3).intervals.sum % U64 ∧
    ((newHeartbeatHistory 2).append 3).squaredIntervalSum =
      sumSq ((newHeartbeatHistory 2).append 3).intervals % U64 ∧
    ((newHeartbeatHistory 2).append 3).intervals.length ≤ 2 ∧
    ((newHeartbeatHistory 2).append 3).maxSampleSize = 2 :=
  ⟨by decide,
    (c7_history_invariant 2 (by decide) _
      (ReachableHistory.append _ 3 ReachableHistory.init (by decide))).1,
    (c7_history_invariant 2 (by decide) _
      (ReachableHistory.append _ 3 ReachableHistory.init (by decide))).2.1,
    (c7_history_invariant 2 (by decide) _
      (ReachableHistory.append _ 3 ReachableHistory.init (by decide))).2.2.1,
    (c7_history_invariant 2 (by decide) _
      (ReachableHistory.append _ 3 ReachableHistory.init (by decide))).2.2.2⟩
